import Mathlib

/-!
Verification development for the CodeExplorer repository (a LangGraph-based
codebase-exploration chatbot).  The Python sources under `src/chatbot/` are
shallowly embedded below: pure string manipulation is modelled on `List Char`
(Python `str` slicing and `len` count code points, which matches `List Char`
indexing), the orchestration graph nodes (`agent.py`) become explicit
state-transition functions on a `ChatState` record, and code that can raise a
Python exception returns `Option`/`Except`.  The opaque external model call is a
function parameter `llm`.
-/

set_option maxRecDepth 10000

namespace CodeExplorer

/-- Kernel-evaluable decidable equality for `Except` results. -/
instance {ε α : Type} [DecidableEq ε] [DecidableEq α] : DecidableEq (Except ε α)
  | .ok a, .ok b =>
    if h : a = b then .isTrue (by rw [h]) else .isFalse (by intro hc; cases hc; exact h rfl)
  | .ok _, .error _ => .isFalse (by intro h; cases h)
  | .error _, .ok _ => .isFalse (by intro h; cases h)
  | .error e, .error f =>
    if h : e = f then .isTrue (by rw [h]) else .isFalse (by intro hc; cases hc; exact h rfl)

/-! ### Python string primitives

Python string operations used by the sources, modelled on the character list
of a `String` so that every definition is structurally recursive and
kernel-evaluable. -/

/-- Characters stripped by Python `str.strip()` with no argument
(ASCII whitespace; the sources never hit the exotic unicode cases). -/
def isPyWhitespace (c : Char) : Bool :=
  c = ' ' || c = '\t' || c = '\n' || c = '\r' || c = Char.ofNat 11 || c = Char.ofNat 12

/-- Drop characters satisfying `p` from both ends, as Python `str.strip(chars)`. -/
def pyStripList (p : Char → Bool) (l : List Char) : List Char :=
  ((l.dropWhile p).reverse.dropWhile p).reverse

/-- Python `s.strip(chars)` (both-ends strip of a character set). -/
def pyStrip (p : Char → Bool) (s : String) : String :=
  ⟨pyStripList p s.data⟩

/-- Python `s.lstrip(chars)` (left strip of a character set). -/
def pyLStrip (p : Char → Bool) (s : String) : String :=
  ⟨s.data.dropWhile p⟩

/-- Python `len(s)` (number of code points). -/
def py_len (s : String) : Nat := s.data.length

/-- Python `s[:n]` (slice of the first `n` code points). -/
def py_slice (s : String) (n : Nat) : String := ⟨s.data.take n⟩

/-- Python `s.lower()`, restricted to ASCII case folding (the repository only
lowercases file names and extensions). -/
def pyToLower (s : String) : String := ⟨s.data.map Char.toLower⟩

/-- Python `s.startswith(pre)`. -/
def pyStartsWith (s pre : String) : Bool := pre.data.isPrefixOf s.data

/-- Python `s.endswith(suf)`. -/
def pyEndsWith (s suf : String) : Bool := suf.data.isSuffixOf s.data

/-- Python `s.replace(old, '')` for a single character `old`. -/
def pyRemoveChar (c : Char) (s : String) : String :=
  ⟨s.data.filter (fun x => x ≠ c)⟩

/-- Helper for `py_split`: accumulate the current chunk while scanning. -/
def splitCharAux (c : Char) : List Char → List Char → List (List Char)
  | [], cur => [cur.reverse]
  | x :: xs, cur =>
    if x = c then cur.reverse :: splitCharAux c xs []
    else splitCharAux c xs (x :: cur)

/-- Python `s.split(sep)` for a one-character separator. -/
def py_split (c : Char) (s : String) : List String :=
  (splitCharAux c s.data []).map (fun l => ⟨l⟩)

/-- Python `sep.join(l)`. -/
def joinSep (sep : String) : List String → String
  | [] => ""
  | [x] => x
  | x :: y :: ys => x ++ sep ++ joinSep sep (y :: ys)

/-- Stable insertion step used to model Python `sorted`. -/
def insertSorted {α : Type} (le : α → α → Bool) (a : α) : List α → List α
  | [] => [a]
  | b :: bs => if le a b then a :: b :: bs else b :: insertSorted le a bs

/-- Model of Python `sorted(l)` (insertion sort; the repository only sorts
lists of strings, compared lexicographically). -/
def pySorted {α : Type} (le : α → α → Bool) (l : List α) : List α :=
  l.foldr (insertSorted le) []

/-- Lexicographic comparison of code-point lists. -/
def charListLe : List Char → List Char → Bool
  | [], _ => true
  | _ :: _, [] => false
  | a :: as, b :: bs =>
    if a.toNat < b.toNat then true
    else if b.toNat < a.toNat then false
    else charListLe as bs

/-- Lexicographic string order used by Python `sorted` on strings. -/
def strLe (a b : String) : Bool := charListLe a.data b.data

/-! ### `filesystem.py`: path sanitization (`FileSystem.read_files`, lines 66-67)

```python
fp_clean = fp.strip().strip("'\"[]").strip()
fp_clean = ''.join(c for c in fp_clean if not c.isdigit()).strip().lstrip('. ').strip()
```
-/

/-- The character set of Python `strip("'\"[]")`. -/
def isQuoteBracket (c : Char) : Bool :=
  c = Char.ofNat 39 || c = '"' || c = '[' || c = ']'

/-- The character set of Python `lstrip('. ')`. -/
def isDotSpace (c : Char) : Bool := c = '.' || c = ' '

/-- Path sanitization performed by `FileSystem.read_files` on each requested
path before lookup (filesystem.py lines 66-67).  Note the second line removes
every digit of the path, wherever it occurs. -/
def sanitize_path (fp : String) : String :=
  let s1 := pyStrip isPyWhitespace fp
  let s2 := pyStrip isQuoteBracket s1
  let s3 := pyStrip isPyWhitespace s2
  let s4 : String := ⟨s3.data.filter (fun c => ¬ c.isDigit)⟩
  let s5 := pyStrip isPyWhitespace s4
  let s6 := pyLStrip isDotSpace s5
  pyStrip isPyWhitespace s6

/-! ### `filesystem.py`: the `FileSystem` class

The directory tree under the codebase root is modelled as a list of
`(relative path, file content)` pairs; every entry is a regular file and paths
use `/` as separator (the platform's `os.sep`).  `stat().st_size` is the
UTF-8 byte size of the content. -/

structure Codebase where
  root : String
  entries : List (String × String)
deriving DecidableEq

/-- `pathlib.Path(p).name`: the final path component. -/
def path_name (p : String) : String :=
  ⟨((p.data.reverse.takeWhile (fun c => c ≠ '/')).reverse)⟩

/-- Index of the last `'.'` in a character list, as Python `name.rfind('.')`
(specialised to the found case via `Option`). -/
def rfindDot (l : List Char) : Option Nat :=
  (l.reverse.findIdx? (fun c => c = '.')).map (fun j => l.length - 1 - j)

/-- `pathlib.Path(p).suffix`: the extension of the final component, i.e.
`name[i:]` for the last dot index `i` when `0 < i < len(name) - 1`, else `""`. -/
def path_suffix (p : String) : String :=
  let name := path_name p
  match rfindDot name.data with
  | none => ""
  | some i =>
    if 0 < i ∧ i < name.data.length - 1 then ⟨name.data.drop i⟩ else ""

/-- `pathlib.Path(p).stem`: the final component without its extension, i.e.
`name[:i]` for the last dot index `i` when `0 < i < len(name) - 1`, else the
whole name. -/
def path_stem (p : String) : String :=
  let name := path_name p
  match rfindDot name.data with
  | none => name
  | some i =>
    if 0 < i ∧ i < name.data.length - 1 then ⟨name.data.take i⟩ else name

/-- The extension whitelist of `FileSystem._list_files` (filesystem.py line 15). -/
def text_extensions : List String :=
  [".java", ".py", ".js", ".cpp", ".h", ".yml", ".yaml", ".properties"]

/-- `FileSystem._list_files` (filesystem.py lines 13-17): all files of the tree
whose lowercased extension is in `text_extensions`. -/
def list_files (cb : Codebase) : List String :=
  (cb.entries.map Prod.fst).filter
    (fun p => text_extensions.any (fun e => e = pyToLower (path_suffix p)))

/-- The test-file filter of `FileSystem.get_file_structure`
(filesystem.py line 22): drop every file whose stem, lowercased, ends in
"test". -/
def non_test_files (cb : Codebase) : List String :=
  (list_files cb).filter (fun f => ¬ pyEndsWith (pyToLower (path_stem f)) "test")

/-- Insertion into the `packages` dict of `get_file_structure`
(filesystem.py lines 28-34): Python dicts keep key insertion order, and values
are appended in iteration order. -/
def group_insert (d : List (String × List String)) (pkg f : String) :
    List (String × List String) :=
  if d.any (fun e => e.1 = pkg) then
    d.map (fun e => if e.1 = pkg then (e.1, e.2 ++ [f]) else e)
  else d ++ [(pkg, [f])]

/-- The `packages` dict built by `get_file_structure`: package prefix
(`"/".join(parts[:-1])`, empty for top-level files) mapped to its file names. -/
def packages_of (files : List String) : List (String × List String) :=
  files.foldl
    (fun d f =>
      let parts := py_split '/' f
      let pkg := if parts.length > 1 then joinSep "/" parts.dropLast else ""
      group_insert d pkg (parts.getLastD ""))
    []

/-- One decimal digit rendering of `bytes / 1024` used for the header's
`f"{total_size:.1f}"`.  Python formats a float with banker's rounding; this
Nat model rounds half up.  No claim depends on the header text. -/
def formatKB (bytes : Nat) : String :=
  let n10 := (bytes * 10 + 512) / 1024
  toString (n10 / 10) ++ "." ++ toString (n10 % 10)

/-- `FileSystem.get_file_structure` (filesystem.py lines 19-42): header with
total size and file count, then the packages (sorted) each with its files
(sorted), finally `strip()`ped. -/
def get_file_structure (cb : Codebase) : String :=
  let files := non_test_files cb
  let total_bytes := (cb.entries.filter (fun e => files.contains e.1)).foldl
    (fun acc e => acc + e.2.utf8ByteSize) 0
  let header := cb.root ++ " (" ++ formatKB total_bytes ++ "KB, " ++
    toString files.length ++ " files)\n"
  let body := (pySorted (fun a b => strLe a.1 b.1) (packages_of files)).foldl
    (fun acc pf =>
      let pkgLine :=
        if pf.1 ≠ "" then "├── " ++ pf.1 ++ " (" ++ toString pf.2.length ++ " files)\n"
        else ""
      let fileLines := (pySorted strLe pf.2).foldl
        (fun a f => a ++ (if pf.1 ≠ "" then "│   ├── " ++ f ++ "\n" else "├── " ++ f ++ "\n"))
        ""
      acc ++ pkgLine ++ fileLines)
    ""
  pyStrip isPyWhitespace (header ++ body)

/-! ### `filesystem.py`: `FileSystem.read_files` (lines 45-81)

A tool argument coming from the model is arbitrary JSON, so a list element is
either a string or some other Python value; calling `.strip()` on the latter
raises `AttributeError`.  Fallible paths return `Except String`. -/

/-- A Python value inside a `file_paths` list: a string, or any non-string
value (int, nested list, ...), on which the string methods of `read_files`
raise `AttributeError`. -/
inductive PyVal where
  | str (s : String)
  | other
deriving DecidableEq

/-- File lookup: `(self.path / fp_clean).exists() and is_file()` plus the read
of the content.  `find?` returns the entry for the path if the tree has one. -/
def lookup_file (entries : List (String × String)) (p : String) : Option String :=
  (entries.find? (fun e => e.1 = p)).map Prod.snd

/-- Content truncation of `read_files` (filesystem.py line 76):
`content[:max_chars] + ("..." if len(content) > max_chars else "")`. -/
def truncate_content (content : String) (max_chars : Nat) : String :=
  py_slice content max_chars ++ (if py_len content > max_chars then "..." else "")

/-- Insertion into the `contents` dict of `read_files`: Python dict assignment
keeps the insertion position of an existing key and overwrites its value. -/
def dict_insert (d : List (String × String)) (k v : String) : List (String × String) :=
  if d.any (fun e => e.1 = k) then
    d.map (fun e => if e.1 = k then (k, v) else e)
  else d ++ [(k, v)]

/-- The main loop of `read_files` (filesystem.py lines 65-80) over the cleaned
path list: sanitize, skip empty or `/` results, skip paths that do not resolve
to a file, truncate and record the rest.  A non-string element raises
`AttributeError` at `fp.strip()`. -/
def read_files_loop (cb : Codebase) :
    List PyVal → List (String × String) → Except String (List (String × String))
  | [], d => .ok d
  | .other :: _, _ => .error "AttributeError"
  | .str fp :: rest, d =>
    let fp_clean := sanitize_path fp
    if fp_clean = "" ∨ fp_clean = "/" then read_files_loop cb rest d
    else
      match lookup_file cb.entries fp_clean with
      | some content => read_files_loop cb rest (dict_insert d fp_clean (truncate_content content 30000))
      | none => read_files_loop cb rest d

/-- Sentinel returned when no file content was retrieved
(filesystem.py lines 59 and 81). -/
def no_valid_sentinel : String := "No valid file contents retrieved."

/-- Final rendering of `read_files` (filesystem.py line 81):
`"\n\n".join(f"{fp}:\n{cont}" ...)`, or the sentinel when the dict is empty. -/
def render_contents (d : List (String × String)) : String :=
  if d = [] then no_valid_sentinel
  else joinSep "\n\n" (d.map (fun e => e.1 ++ ":\n" ++ e.2))

/-- Loop plus final rendering, shared by the three entry branches. -/
def read_files_finish (cb : Codebase) (l : List PyVal) : Except String String :=
  match read_files_loop cb l [] with
  | .error e => .error e
  | .ok d => .ok (render_contents d)

/-- `FileSystem.read_files` (filesystem.py lines 45-81) with
`max_chars = 30000` as called by the `open_files` tool (tools.py lines 9-11).
The argument is either a string (first branch: newline removal, strip, and a
bracket-shaped string goes through `ast.literal_eval`, modelled by the
`litEval` parameter whose `none` is a parse failure) or a list of Python
values. -/
def read_files (cb : Codebase) (litEval : String → Option (List PyVal))
    (arg : Sum String (List PyVal)) : Except String String :=
  match arg with
  | .inl s =>
    let fp_cleaned := pyStrip isPyWhitespace (pyRemoveChar '\n' s)
    if pyStartsWith fp_cleaned "[" && pyEndsWith fp_cleaned "]" then
      match litEval fp_cleaned with
      | some l => read_files_finish cb l
      | none => .ok no_valid_sentinel
    else read_files_finish cb [.str fp_cleaned]
  | .inr l => read_files_finish cb l

/-! ### `models.py` / `agent.py`: messages and conversation state

LangChain messages are modelled by one record with a type tag.  `tool_calls`
is empty for every non-Assistant message (non-Assistant classes have no
`tool_calls` attribute, which the routing code treats as falsy).
`metadata_tool_name` is `metadata["tool_name"]` of a Tool message.  Message
ids (strings/uuids in LangChain) are modelled as `Nat`; newly created
messages are appended by the `add_messages` reducer because their fresh uuids
never collide with existing ids. -/

inductive MsgType where
  | system | human | ai | tool
deriving DecidableEq, Inhabited

/-- A tool call attached to an Assistant message.  `file_paths` models
`tool_call["args"].get("file_paths", [])` for a well-typed call; the
`call_id` is `tool_call["id"]`. -/
structure ToolCall where
  name : String
  file_paths : List String
  call_id : String
deriving DecidableEq

structure Message where
  mtype : MsgType
  content : String
  tool_calls : List ToolCall
  metadata_tool_name : Option String
  id : Nat
deriving DecidableEq, Inhabited

/-- `ChatState` (models.py lines 11-18). -/
structure ChatState where
  messages : List Message
  all_files_opened : List String
  kb_exploration_rounds : Nat
  generating_kb : Bool
  knowledge_base : Option String
  command : Option String
  summary : String
deriving DecidableEq

/-- Sequential removal of message ids, as the `add_messages` reducer applies a
list of `RemoveMessage(id=...)` tombstones. -/
def remove_ids (ms : List Message) (ids : List Nat) : List Message :=
  ids.foldl (fun acc i => acc.filter (fun m => m.id ≠ i)) ms

/-! ### `agent.py`: orchestrator nodes and routers -/

/-- Routing targets of `_route_tools_node` (agent.py lines 261-277). -/
inductive AgentRoute where
  | tools | agent | summarizer | terminal
deriving DecidableEq

/-- `_route_tools_node` (agent.py lines 261-277): the conditional-edge router
that runs after the `agent` node. -/
def route_tools_node (s : ChatState) : AgentRoute :=
  if s.messages = [] then .terminal
  else
    let last := s.messages.getLastD default
    if last.tool_calls ≠ [] then .tools
    else if s.generating_kb then .agent
    else if s.messages.length > 15 then .summarizer
    else .terminal

/-- Routing targets of `_route_after_tools` (agent.py lines 279-282). -/
inductive ToolsRoute where
  | generate_kb | agent
deriving DecidableEq

/-- `_route_after_tools` (agent.py lines 279-282): after tool dispatch, go to
knowledge-base synthesis iff exploration mode is on and the round counter
exceeds 8; otherwise return to the agent. -/
def route_after_tools (s : ChatState) : ToolsRoute :=
  if s.generating_kb ∧ s.kb_exploration_rounds > 8 then .generate_kb else .agent

/-- Accumulator of the dispatch loop in `_execute_tools_node`
(agent.py lines 76-102): the Tool messages built so far, the paths appended to
`all_files_opened`, and the `used_open_files` flag. -/
structure DispatchAcc where
  messages : List Message
  all_files_opened : List String
  used_open_files : Bool
deriving DecidableEq

/-- A Tool message as built by `_execute_tools_node` (agent.py lines 98-102).
The metadata also records the file list for `open_files`; only `tool_name` is
ever read back, so only it is modelled.  The id is assigned fresh by the
reducer and is irrelevant here (set to 0). -/
def mkToolMessage (content : String) (tool_name : String) : Message :=
  { mtype := .tool, content := content, tool_calls := [],
    metadata_tool_name := some tool_name, id := 0 }

/-- The dispatch loop of `_execute_tools_node` (agent.py lines 83-102): for
each tool call, `open_files` runs `read_files` on the requested paths (which
also extends `all_files_opened` and sets `used_open_files`),
`get_file_structure` runs the structure listing, and any other name yields an
"Unknown tool" Tool message.  An exception from `read_files` propagates. -/
def dispatch_tool_calls (cb : Codebase) (litEval : String → Option (List PyVal)) :
    List ToolCall → DispatchAcc → Except String DispatchAcc
  | [], acc => .ok acc
  | tc :: rest, acc =>
    if tc.name = "open_files" then
      match read_files cb litEval (.inr (tc.file_paths.map PyVal.str)) with
      | .error e => .error e
      | .ok result =>
        dispatch_tool_calls cb litEval rest
          { messages := acc.messages ++ [mkToolMessage result "open_files"],
            all_files_opened := acc.all_files_opened ++ tc.file_paths,
            used_open_files := true }
    else if tc.name = "get_file_structure" then
      dispatch_tool_calls cb litEval rest
        { acc with messages := acc.messages ++ [mkToolMessage (get_file_structure cb) "get_file_structure"] }
    else
      dispatch_tool_calls cb litEval rest
        { acc with messages := acc.messages ++ [mkToolMessage ("Unknown tool: " ++ tc.name) tc.name] }

/-- `_execute_tools_node` (agent.py lines 75-113) composed with the state
reducers: new Tool messages are appended, the opened paths are concatenated
onto `all_files_opened` (`operator.add`), `kb_exploration_rounds` is bumped by
exactly 1 when exploration mode is on and the batch used `open_files`,
`generating_kb` is returned unchanged and `command` cleared.  On an empty
history `state["messages"][-1]` raises `IndexError`. -/
def execute_tools_node (cb : Codebase) (litEval : String → Option (List PyVal))
    (s : ChatState) : Except String ChatState :=
  match s.messages.getLast? with
  | none => .error "IndexError"
  | some last =>
    match dispatch_tool_calls cb litEval last.tool_calls ⟨[], [], false⟩ with
    | .error e => .error e
    | .ok acc =>
      .ok { s with
        messages := s.messages ++ acc.messages,
        all_files_opened := s.all_files_opened ++ acc.all_files_opened,
        kb_exploration_rounds :=
          if s.generating_kb && acc.used_open_files then s.kb_exploration_rounds + 1
          else s.kb_exploration_rounds,
        command := none }

/-- Is the message a Tool message whose `metadata["tool_name"]` is
`open_files` (the test on agent.py lines 62 and 70)? -/
def is_open_files_tool (m : Message) : Bool :=
  m.mtype = .tool && m.metadata_tool_name = some "open_files"

/-- Content of the forced-continuation Human message (agent.py line 68). -/
def continue_content : String :=
  "\n\n Continue to self explore in order to generate the comprehensive knowledge base."

/-- The forced-continuation Human message appended by the agent node while in
exploration mode when the model stopped calling tools. -/
def continue_message : Message :=
  { mtype := .human, content := continue_content, tool_calls := [],
    metadata_tool_name := none, id := 0 }

/-- Replace the content of the last message of a history with `"..."`
(the in-place mutation plus `update_state` on agent.py lines 71-72: the
mutated message is written back under its own id, so only its content
changes and its position is preserved). -/
def collapse_last : List Message → List Message
  | [] => []
  | [m] => [{ m with content := "..." }]
  | m :: m2 :: rest => m :: collapse_last (m2 :: rest)

/-- `_agent_node` (agent.py lines 59-73) composed with the `add_messages`
reducer.  The model boundary is the parameter `llm` mapping the message
history to the Assistant response.  The source makes a first model call with
an extra "Remind" message when the previous message is an `open_files` Tool
message, but unconditionally overwrites that response with a second call on
the plain history (line 65), so only the second call's response reaches the
state.  If the response has no tool calls while `generating_kb` is on, the
node returns early with the response plus the forced-continuation message —
skipping the placeholder collapse.  Otherwise, if the previous message is an
`open_files` Tool message its content is collapsed to `"..."` before the
response is appended.  An empty history raises `IndexError` at
`state["messages"][-1]`. -/
def agent_node (llm : List Message → Message) (s : ChatState) : Option ChatState :=
  match s.messages.getLast? with
  | none => none
  | some last =>
    let response := llm s.messages
    if response.tool_calls = [] ∧ s.generating_kb then
      some { s with messages := s.messages ++ [response, continue_message] }
    else if is_open_files_tool last then
      some { s with messages := collapse_last s.messages ++ [response] }
    else
      some { s with messages := s.messages ++ [response] }

/-! ### `agent.py`: `_summarize_conversation` (lines 226-253) -/

/-- Tag used when rendering a message into the summary prompt; stands for the
class name in the Python `repr` of a LangChain message. -/
def message_tag : MsgType → String
  | .system => "SystemMessage"
  | .human => "HumanMessage"
  | .ai => "AIMessage"
  | .tool => "ToolMessage"

/-- Abstraction of the Python `repr` of one LangChain message as it appears
when the list `messages_to_remove` is interpolated into the summary f-string:
the class name with the full `content` embedded (quoting around the content
is elided). -/
def message_repr (m : Message) : String :=
  message_tag m.mtype ++ "(content=" ++ m.content ++ ")"

/-- The interpolation `{messages_to_remove}` (Python `str` of a list). -/
def render_removed (l : List Message) : String :=
  "[" ++ joinSep ", " (l.map message_repr) ++ "]"

/-- The summary prompt f-string (agent.py lines 235-240), embedding the
current running summary and the messages being folded. -/
def summarize_prompt (prev : String) (l : List Message) : String :=
  "\n        Current conversation summary: " ++ prev ++
  "\n        Update this summary with key technical details from these new messages:\n        " ++
  render_removed l ++
  "\n        less than 500 words\n        "

/-- `_summarize_conversation` (agent.py lines 226-253) composed with the
`add_messages` reducer: with `keep_messages = 1`, all but the last message are
selected for folding, a leading System message is popped back out of that
list (so it is neither folded nor removed), the model is called once on the
summary prompt, and `RemoveMessage` tombstones delete every folded message by
id.  On a history of length at most 1, `messages_to_remove[0]` raises
`IndexError`. -/
def summarize_conversation (llm : String → String) (s : ChatState) : Option ChatState :=
  let messages_to_remove := s.messages.dropLast
  match messages_to_remove with
  | [] => none
  | m0 :: rest =>
    let mtr := if m0.mtype = .system then rest else m0 :: rest
    let response := llm (summarize_prompt s.summary mtr)
    some { s with
      summary := response,
      messages := remove_ids s.messages (mtr.map Message.id) }

/-! ### General helper lemmas -/

theorem str_data_mk (l : List Char) : (String.mk l).data = l := rfl

theorem str_data_append (a b : String) : (a ++ b).data = a.data ++ b.data := by
  cases a; cases b; rfl

theorem str_append_empty (s : String) : s ++ "" = s := by
  cases s with
  | mk l => show String.mk (l ++ []) = String.mk l; rw [List.append_nil]

/-! ## C4 — path sanitization

The spec claims only stray leading index digits are removed and intrinsic
digits (as in "utils2.py") are preserved; the source removes every digit of
the path (`''.join(c for c in fp_clean if not c.isdigit())`,
filesystem.py line 67). -/

/-- C4: the sanitizer of `read_files` destroys digits that are an intrinsic
part of the file name: sanitizing "utils2.py" yields "utils.py", not the
intended path, contradicting the claim that interior/trailing digits are
preserved. -/
theorem c4_sanitize_drops_intrinsic_digit :
    sanitize_path "utils2.py" = "utils.py" ∧ sanitize_path "utils2.py" ≠ "utils2.py" := by
  decide

/-! ## C8 — `get_file_structure` excludes test files -/

/-- C8: for every input tree, any path whose file-name stem case-insensitively
ends in "test" is excluded from the files enumerated by
`get_file_structure` (the `non_test_files` selection that the rendered
structure iterates over). -/
theorem c8_structure_excludes_test_files (cb : Codebase) (p : String)
    (h : pyEndsWith (pyToLower (path_stem p)) "test" = true) :
    p ∉ non_test_files cb := by
  intro hmem
  have h2 := (List.mem_filter.mp hmem).2
  simp [h] at h2

def c8_cb : Codebase :=
  ⟨"proj", [("FooTest.py", "t"), ("foo.py", "f"), ("dir/BarTEST.java", "b")]⟩

/-- Witness for C8 at a concrete tree and path. -/
theorem c8_structure_excludes_test_files_witness :
    pyEndsWith (pyToLower (path_stem "dir/BarTEST.java")) "test" = true ∧
    "dir/BarTEST.java" ∉ non_test_files c8_cb :=
  ⟨by decide, c8_structure_excludes_test_files c8_cb "dir/BarTEST.java" (by decide)⟩

/-! ## C2 — routing priority after the Agent node

The router `_route_tools_node` is reached only after the `agent` node, which
always appends at least the model response to the history, so the routed
state has a nonempty message list (the router's own empty-history guard just
ends the turn). -/

/-- C2: on every nonempty-history state, routing after the Agent node obeys
the strict priority: pending tool calls on the latest message go to tool
dispatch; else exploration mode returns to the Agent; else a history longer
than 15 goes to the Summarizer; else the turn ends.  Tool-call presence
preempts both mode and length. -/
theorem c2_route_after_agent_priority (s : ChatState) (h : s.messages ≠ []) :
    ((s.messages.getLastD default).tool_calls ≠ [] → route_tools_node s = .tools)
    ∧ ((s.messages.getLastD default).tool_calls = [] → s.generating_kb = true →
        route_tools_node s = .agent)
    ∧ ((s.messages.getLastD default).tool_calls = [] → s.generating_kb = false →
        s.messages.length > 15 → route_tools_node s = .summarizer)
    ∧ ((s.messages.getLastD default).tool_calls = [] → s.generating_kb = false →
        ¬ s.messages.length > 15 → route_tools_node s = .terminal) := by
  refine ⟨?_, ?_, ?_, ?_⟩
  · intro h1
    simp only [List.getLastD_eq_getLast?] at h1
    simp [route_tools_node, h, h1]
  · intro h1 h2
    simp only [List.getLastD_eq_getLast?] at h1
    simp [route_tools_node, h, h1, h2]
  · intro h1 h2 h3
    simp only [List.getLastD_eq_getLast?] at h1
    simp [route_tools_node, h, h1, h2, h3]
  · intro h1 h2 h3
    simp only [List.getLastD_eq_getLast?] at h1
    simp [route_tools_node, h, h1, h2, h3]

def c2_state : ChatState :=
  ⟨[⟨.ai, "r", [⟨"open_files", ["a.py"], "t1"⟩], none, 1⟩], [], 0, true, none, none, ""⟩

/-- Witness for C2: a state in exploration mode whose latest message carries a
tool call routes to tool dispatch (preempting the mode-based route). -/
theorem c2_route_after_agent_priority_witness :
    c2_state.messages ≠ [] ∧ route_tools_node c2_state = .tools :=
  ⟨by decide, (c2_route_after_agent_priority c2_state (by decide)).1 (by decide)⟩

/-! ## C7 — `open_files` truncation, and C10 — extension whitelist -/

/-- Unfolding equation of `read_files_loop` on the empty path list. -/
theorem read_files_loop_nil (cb : Codebase) (d : List (String × String)) :
    read_files_loop cb [] d = .ok d := rfl

/-- Unfolding equation of `read_files_loop` on a non-string element
(Python `fp.strip()` raises `AttributeError`). -/
theorem read_files_loop_other (cb : Codebase) (rest : List PyVal)
    (d : List (String × String)) :
    read_files_loop cb (.other :: rest) d = .error "AttributeError" := rfl

/-- Unfolding equation of `read_files_loop` on a string element. -/
theorem read_files_loop_str_cons (cb : Codebase) (fp : String) (rest : List PyVal)
    (d : List (String × String)) :
    read_files_loop cb (.str fp :: rest) d =
      (if sanitize_path fp = "" ∨ sanitize_path fp = "/" then read_files_loop cb rest d
       else match lookup_file cb.entries (sanitize_path fp) with
         | some content =>
           read_files_loop cb rest (dict_insert d (sanitize_path fp) (truncate_content content 30000))
         | none => read_files_loop cb rest d) := rfl

/-- Helper: reading a single path that resolves (after sanitization) to an
existing file returns that file's block, content truncated at 30000. -/
theorem read_files_single (cb : Codebase) (le : String → Option (List PyVal))
    (p c : String) (hl : lookup_file cb.entries (sanitize_path p) = some c)
    (h1 : sanitize_path p ≠ "") (h2 : sanitize_path p ≠ "/") :
    read_files cb le (.inr [.str p]) =
      .ok (sanitize_path p ++ ":\n" ++ truncate_content c 30000) := by
  have hcond : ¬ (sanitize_path p = "" ∨ sanitize_path p = "/") :=
    fun hc => hc.elim h1 h2
  have step : read_files_loop cb [.str p] [] =
      .ok [(sanitize_path p, truncate_content c 30000)] := by
    rw [read_files_loop_str_cons, if_neg hcond, hl]
    rfl
  show read_files_finish cb [.str p] = _
  rw [read_files_finish, step]
  rfl

/-- Truncation is the identity on content of at most `n` code points. -/
theorem truncate_content_of_le (c : String) (n : Nat) (h : py_len c ≤ n) :
    truncate_content c n = c := by
  have h1 : ¬ py_len c > n := by omega
  rw [truncate_content, if_neg h1, str_append_empty]
  unfold py_slice
  unfold py_len at h
  rw [List.take_of_length_le h]

/-- Truncation keeps the first `n` code points and appends the marker on long
content. -/
theorem truncate_content_of_gt (c : String) (n : Nat) (h : py_len c > n) :
    truncate_content c n = py_slice c n ++ "..." := by
  rw [truncate_content, if_pos h]

/-- C7: every file read via `open_files` is returned as its full content when
at most 30000 characters (the read round-trips), and as the first 30000
characters followed by the "..." truncation marker otherwise. -/
theorem c7_open_files_truncation (cb : Codebase) (le : String → Option (List PyVal))
    (p c : String) (hl : lookup_file cb.entries (sanitize_path p) = some c)
    (h1 : sanitize_path p ≠ "") (h2 : sanitize_path p ≠ "/") :
    read_files cb le (.inr [.str p]) =
      .ok (sanitize_path p ++ ":\n" ++ truncate_content c 30000)
    ∧ (py_len c ≤ 30000 → truncate_content c 30000 = c)
    ∧ (py_len c > 30000 → truncate_content c 30000 = py_slice c 30000 ++ "...") :=
  ⟨read_files_single cb le p c hl h1 h2,
   truncate_content_of_le c 30000,
   truncate_content_of_gt c 30000⟩

def c7_cb : Codebase := ⟨"proj", [("a.py", "hello")]⟩

def c7_le : String → Option (List PyVal) := fun _ => none

/-- Witness for C7: a short file round-trips unchanged. -/
theorem c7_open_files_truncation_witness :
    lookup_file c7_cb.entries (sanitize_path "a.py") = some "hello" ∧
    read_files c7_cb c7_le (.inr [.str "a.py"]) = .ok ("a.py" ++ ":\n" ++ "hello") :=
  ⟨by decide, by
    have h := c7_open_files_truncation c7_cb c7_le "a.py" "hello"
      (by decide) (by decide) (by decide)
    rw [h.1, h.2.1 (by decide)]
    decide⟩

/-- C10: the structure listing only enumerates files whose lowercased
extension is in the fixed whitelist, and `open_files` can nevertheless read a
file of any extension whose path is supplied directly (and resolves after
sanitization). -/
theorem c10_extension_whitelist (cb : Codebase) (p : String) :
    (p ∈ non_test_files cb → pyToLower (path_suffix p) ∈ text_extensions)
    ∧ (∀ (le : String → Option (List PyVal)) (c : String),
        lookup_file cb.entries (sanitize_path p) = some c →
        sanitize_path p ≠ "" → sanitize_path p ≠ "/" →
        read_files cb le (.inr [.str p]) =
          .ok (sanitize_path p ++ ":\n" ++ truncate_content c 30000)) := by
  constructor
  · intro hmem
    have h1 := (List.mem_filter.mp (List.mem_filter.mp hmem).1).2
    have h2 := List.any_eq_true.mp h1
    obtain ⟨e, he, heq⟩ := h2
    simp only [decide_eq_true_eq] at heq
    rwa [← heq]
  · intro le c hl h1 h2
    exact read_files_single cb le p c hl h1 h2

def c10_cb : Codebase := ⟨"proj", [("a.py", "x"), ("notes.md", "mm")]⟩

/-- Witness for C10: a ".md" file is readable via `open_files` even though it
never appears in the structure listing (checked directly on the same tree). -/
theorem c10_extension_whitelist_witness :
    "notes.md" ∉ non_test_files c10_cb ∧
    read_files c10_cb c7_le (.inr [.str "notes.md"]) =
      .ok (sanitize_path "notes.md" ++ ":\n" ++ truncate_content "mm" 30000) :=
  ⟨by decide,
   (c10_extension_whitelist c10_cb "notes.md").2 c7_le "mm" (by decide) (by decide) (by decide)⟩

/-- Unfolding equation of `agent_node` for a nonempty history. -/
theorem agent_node_eq (llm : List Message → Message) (t : ChatState) (last : Message)
    (ht : t.messages.getLast? = some last) :
    agent_node llm t =
      (if (llm t.messages).tool_calls = [] ∧ t.generating_kb = true then
        some { t with messages := t.messages ++ [llm t.messages, continue_message] }
      else if is_open_files_tool last = true then
        some { t with messages := collapse_last t.messages ++ [llm t.messages] }
      else some { t with messages := t.messages ++ [llm t.messages] }) := by
  unfold agent_node
  rw [ht]

/-! ## C1 — exploration round counting, and C9 — `all_files_opened` -/

/-- The paths a batch of tool calls requests through `open_files`, in call
order with duplicates retained. -/
def batch_files_opened : List ToolCall → List String
  | [] => []
  | tc :: rest =>
    (if tc.name = "open_files" then tc.file_paths else []) ++ batch_files_opened rest

/-- Does a batch of tool calls contain at least one `open_files` call? -/
def batch_used_open_files : List ToolCall → Bool
  | [] => false
  | tc :: rest => (tc.name = "open_files") || batch_used_open_files rest

/-- Unfolding equation of `dispatch_tool_calls` on the empty batch. -/
theorem dispatch_tool_calls_nil (cb : Codebase) (le : String → Option (List PyVal))
    (acc : DispatchAcc) : dispatch_tool_calls cb le [] acc = .ok acc := rfl

/-- Unfolding equation of `dispatch_tool_calls` on a batch element. -/
theorem dispatch_tool_calls_cons (cb : Codebase) (le : String → Option (List PyVal))
    (tc : ToolCall) (rest : List ToolCall) (acc : DispatchAcc) :
    dispatch_tool_calls cb le (tc :: rest) acc =
      (if tc.name = "open_files" then
        match read_files cb le (.inr (tc.file_paths.map PyVal.str)) with
        | .error e => .error e
        | .ok result =>
          dispatch_tool_calls cb le rest
            { messages := acc.messages ++ [mkToolMessage result "open_files"],
              all_files_opened := acc.all_files_opened ++ tc.file_paths,
              used_open_files := true }
      else if tc.name = "get_file_structure" then
        dispatch_tool_calls cb le rest
          { acc with messages := acc.messages ++ [mkToolMessage (get_file_structure cb) "get_file_structure"] }
      else
        dispatch_tool_calls cb le rest
          { acc with messages := acc.messages ++ [mkToolMessage ("Unknown tool: " ++ tc.name) tc.name] }) := rfl

/-- Specification of the dispatch loop: on success, the accumulated
`all_files_opened` grows by exactly the batch's requested `open_files` paths
in call order, and `used_open_files` records whether any `open_files` call
occurred. -/
theorem dispatch_tool_calls_spec (cb : Codebase) (le : String → Option (List PyVal)) :
    ∀ (tcs : List ToolCall) (acc acc' : DispatchAcc),
      dispatch_tool_calls cb le tcs acc = .ok acc' →
      acc'.all_files_opened = acc.all_files_opened ++ batch_files_opened tcs
      ∧ acc'.used_open_files = (acc.used_open_files || batch_used_open_files tcs) := by
  intro tcs
  induction tcs with
  | nil =>
    intro acc acc' h
    rw [dispatch_tool_calls_nil] at h
    cases h
    simp [batch_files_opened, batch_used_open_files]
  | cons tc rest ih =>
    intro acc acc' h
    rw [dispatch_tool_calls_cons] at h
    by_cases h1 : tc.name = "open_files"
    · rw [if_pos h1] at h
      cases hr : read_files cb le (.inr (tc.file_paths.map PyVal.str)) with
      | error e => rw [hr] at h; cases h
      | ok result =>
        rw [hr] at h
        have := ih _ _ h
        simp only [batch_files_opened, batch_used_open_files, h1, if_pos] at *
        simp [this.1, this.2, List.append_assoc]
    · rw [if_neg h1] at h
      by_cases h2 : tc.name = "get_file_structure"
      · rw [if_pos h2] at h
        have := ih _ _ h
        simp only [batch_files_opened, batch_used_open_files, h1] at *
        simp [this.1, this.2]
      · rw [if_neg h2] at h
        have := ih _ _ h
        simp only [batch_files_opened, batch_used_open_files, h1] at *
        simp [this.1, this.2]

/-- Unfolding equation of `execute_tools_node` for a nonempty history. -/
theorem execute_tools_node_eq (cb : Codebase) (le : String → Option (List PyVal))
    (s : ChatState) (last : Message) (hlast : s.messages.getLast? = some last) :
    execute_tools_node cb le s =
      (match dispatch_tool_calls cb le last.tool_calls ⟨[], [], false⟩ with
      | .error e => .error e
      | .ok acc =>
        .ok { s with
          messages := s.messages ++ acc.messages,
          all_files_opened := s.all_files_opened ++ acc.all_files_opened,
          kb_exploration_rounds :=
            if s.generating_kb && acc.used_open_files then s.kb_exploration_rounds + 1
            else s.kb_exploration_rounds,
          command := none }) := by
  unfold execute_tools_node
  rw [hlast]

/-- Characterization of `_route_after_tools` on any state. -/
theorem route_after_tools_spec (t : ChatState) :
    (route_after_tools t = .generate_kb ↔
      (t.generating_kb = true ∧ t.kb_exploration_rounds > 8))
    ∧ (route_after_tools t = .agent ↔
      ¬ (t.generating_kb = true ∧ t.kb_exploration_rounds > 8)) := by
  unfold route_after_tools
  by_cases hc : t.generating_kb = true ∧ t.kb_exploration_rounds > 8
  · rw [if_pos hc]
    exact ⟨⟨fun _ => hc, fun _ => rfl⟩, ⟨fun h => ToolsRoute.noConfusion h, fun h => (h hc).elim⟩⟩
  · rw [if_neg hc]
    exact ⟨⟨fun h => ToolsRoute.noConfusion h, fun h => (hc h).elim⟩, ⟨fun _ => hc, fun _ => rfl⟩⟩

/-- C1 (amended): during exploration mode a tool-dispatch batch increments the
round counter by exactly 1 when the batch contains at least one `open_files`
call — once per batch, not once per file or per call — and leaves it
unchanged otherwise (in particular, a batch of only `get_file_structure`
calls does not count as a round); routing after dispatch goes to
knowledge-base synthesis exactly when exploration mode is on and the counter
exceeds 8, and returns to the Agent otherwise. -/
theorem c1_exploration_round_counting (cb : Codebase) (le : String → Option (List PyVal))
    (s s' : ChatState) (last : Message)
    (hlast : s.messages.getLast? = some last)
    (hex : execute_tools_node cb le s = .ok s') :
    s'.generating_kb = s.generating_kb
    ∧ s'.kb_exploration_rounds =
        (if s.generating_kb && batch_used_open_files last.tool_calls then
          s.kb_exploration_rounds + 1
        else s.kb_exploration_rounds)
    ∧ (route_after_tools s' = .generate_kb ↔
        (s'.generating_kb = true ∧ s'.kb_exploration_rounds > 8))
    ∧ (route_after_tools s' = .agent ↔
        ¬ (s'.generating_kb = true ∧ s'.kb_exploration_rounds > 8)) := by
  rw [execute_tools_node_eq cb le s last hlast] at hex
  cases hd : dispatch_tool_calls cb le last.tool_calls ⟨[], [], false⟩ with
  | error e => rw [hd] at hex; cases hex
  | ok acc =>
    rw [hd] at hex
    cases hex
    have hspec := dispatch_tool_calls_spec cb le last.tool_calls ⟨[], [], false⟩ acc hd
    have hused : acc.used_open_files = batch_used_open_files last.tool_calls := by
      rw [hspec.2]; simp
    exact ⟨rfl, by simp [hused], (route_after_tools_spec _).1, (route_after_tools_spec _).2⟩

def c1_cb : Codebase := ⟨"proj", [("a.py", "hi")]⟩

def c1_le : String → Option (List PyVal) := fun _ => none

/-- A state in exploration mode (round counter 0) whose last message carries a
single `get_file_structure` tool call. -/
def c1_cex_state : ChatState :=
  ⟨[⟨.ai, "r", [⟨"get_file_structure", [], "t1"⟩], none, 1⟩], [], 0, true, none, none, ""⟩

/-- Counterexample to C1 as stated: in exploration mode, a nonempty
tool-dispatch batch consisting of a `get_file_structure` call leaves the
round counter at 0 instead of incrementing it to 1 — not every batch
increments the counter. -/
theorem c1_counterexample :
    c1_cex_state.generating_kb = true
    ∧ c1_cex_state.kb_exploration_rounds = 0
    ∧ (c1_cex_state.messages.getLastD default).tool_calls ≠ []
    ∧ (execute_tools_node c1_cb c1_le c1_cex_state).map ChatState.kb_exploration_rounds
        = .ok 0 := by
  decide

/-- The Assistant message of the C1 witness: one `open_files` call with two
paths. -/
def c1_wit_last : Message :=
  ⟨.ai, "r", [⟨"open_files", ["a.py", "b.py"], "t1"⟩], none, 1⟩

/-- A state in exploration mode whose last message carries one `open_files`
call requesting two paths. -/
def c1_wit_state : ChatState :=
  ⟨[c1_wit_last], [], 0, true, none, none, ""⟩

/-- The state produced by dispatching `c1_wit_state`'s batch. -/
def c1_wit_state' : ChatState :=
  ⟨[c1_wit_last, mkToolMessage "a.py:\nhi" "open_files"],
   ["a.py", "b.py"], 1, true, none, none, ""⟩

/-- Witness for the amended C1 at a concrete exploration-mode batch: one
`open_files` call with two paths counts as exactly one round, and routing
returns to the agent while the counter is at most 8. -/
theorem c1_exploration_round_counting_witness :
    execute_tools_node c1_cb c1_le c1_wit_state = .ok c1_wit_state'
    ∧ (c1_wit_state'.kb_exploration_rounds =
        if c1_wit_state.generating_kb && batch_used_open_files c1_wit_last.tool_calls
        then c1_wit_state.kb_exploration_rounds + 1
        else c1_wit_state.kb_exploration_rounds)
    ∧ (route_after_tools c1_wit_state' = .agent ↔
        ¬ (c1_wit_state'.generating_kb = true ∧ c1_wit_state'.kb_exploration_rounds > 8)) :=
  ⟨by decide,
   (c1_exploration_round_counting c1_cb c1_le c1_wit_state c1_wit_state' c1_wit_last
      (by decide) (by decide)).2.1,
   (c1_exploration_round_counting c1_cb c1_le c1_wit_state c1_wit_state' c1_wit_last
      (by decide) (by decide)).2.2.2⟩

/-! ## C9 — `all_files_opened` is append-only and order-preserving -/

/-- Driver modelling successive tool-dispatch batches of one thread: each
batch arrives on a fresh Assistant message (as the agent node would append)
and is dispatched by `_execute_tools_node`.  Between batches no other node
touches `all_files_opened` (see the agent-node conjunct of the C9 theorem). -/
def run_tool_batches (cb : Codebase) (le : String → Option (List PyVal)) :
    ChatState → List (List ToolCall) → Except String ChatState
  | s, [] => .ok s
  | s, tcs :: rest =>
    let s1 := { s with
      messages := s.messages ++ [⟨.ai, "", tcs, none, 0⟩] }
    match execute_tools_node cb le s1 with
    | .error e => .error e
    | .ok s' => run_tool_batches cb le s' rest

/-- Unfolding equation of `run_tool_batches` on an empty batch list. -/
theorem run_tool_batches_nil (cb : Codebase) (le : String → Option (List PyVal))
    (s : ChatState) : run_tool_batches cb le s [] = .ok s := rfl

/-- Unfolding equation of `run_tool_batches` on a batch. -/
theorem run_tool_batches_cons (cb : Codebase) (le : String → Option (List PyVal))
    (s : ChatState) (tcs : List ToolCall) (rest : List (List ToolCall)) :
    run_tool_batches cb le s (tcs :: rest) =
      (match execute_tools_node cb le
          { s with messages := s.messages ++ [⟨.ai, "", tcs, none, 0⟩] } with
      | .error e => .error e
      | .ok s' => run_tool_batches cb le s' rest) := rfl

/-- Single-step effect of tool dispatch on `all_files_opened`. -/
theorem execute_tools_all_files (cb : Codebase) (le : String → Option (List PyVal))
    (s s' : ChatState) (last : Message)
    (hlast : s.messages.getLast? = some last)
    (hex : execute_tools_node cb le s = .ok s') :
    s'.all_files_opened = s.all_files_opened ++ batch_files_opened last.tool_calls := by
  rw [execute_tools_node_eq cb le s last hlast] at hex
  cases hd : dispatch_tool_calls cb le last.tool_calls ⟨[], [], false⟩ with
  | error e => rw [hd] at hex; cases hex
  | ok acc =>
    rw [hd] at hex
    cases hex
    have hspec := dispatch_tool_calls_spec cb le last.tool_calls ⟨[], [], false⟩ acc hd
    simpa using hspec.1

/-- The cumulative effect of a batch sequence on `all_files_opened`. -/
theorem run_tool_batches_files (cb : Codebase) (le : String → Option (List PyVal)) :
    ∀ (batches : List (List ToolCall)) (s s' : ChatState),
      run_tool_batches cb le s batches = .ok s' →
      s'.all_files_opened = s.all_files_opened ++ (batches.map batch_files_opened).flatten := by
  intro batches
  induction batches with
  | nil =>
    intro s s' h
    rw [run_tool_batches_nil] at h
    cases h
    simp
  | cons tcs rest ih =>
    intro s s' h
    rw [run_tool_batches_cons] at h
    cases hex : execute_tools_node cb le
        { s with messages := s.messages ++ [⟨.ai, "", tcs, none, 0⟩] } with
    | error e => rw [hex] at h; cases h
    | ok s1 =>
      rw [hex] at h
      have hstep := execute_tools_all_files cb le _ s1 ⟨.ai, "", tcs, none, 0⟩
        (by simp) hex
      have hrest := ih s1 s' h
      rw [hrest, hstep]
      simp [List.append_assoc]

/-- C9: across any sequence of tool-dispatch batches, `all_files_opened` is
append-only and order-preserving — the final log is the initial log followed
by every batch's requested `open_files` paths in request order, duplicates
retained, and its length grows by exactly the total count of requested paths;
moreover the Agent node never changes `all_files_opened`. -/
theorem c9_all_files_opened_append_only (cb : Codebase) (le : String → Option (List PyVal))
    (s s' : ChatState) (batches : List (List ToolCall))
    (h : run_tool_batches cb le s batches = .ok s') :
    s'.all_files_opened = s.all_files_opened ++ (batches.map batch_files_opened).flatten
    ∧ s'.all_files_opened.length =
        s.all_files_opened.length + ((batches.map batch_files_opened).map List.length).sum
    ∧ (∀ (llm : List Message → Message) (t t' : ChatState),
        agent_node llm t = some t' → t'.all_files_opened = t.all_files_opened) := by
  have hfiles := run_tool_batches_files cb le batches s s' h
  refine ⟨hfiles, ?_, ?_⟩
  · rw [hfiles]
    simp [List.length_flatten]
  · intro llm t t' hag
    cases ht : t.messages.getLast? with
    | none => unfold agent_node at hag; rw [ht] at hag; cases hag
    | some last =>
      rw [agent_node_eq llm t last ht] at hag
      by_cases hc : (llm t.messages).tool_calls = [] ∧ t.generating_kb = true
      · rw [if_pos hc] at hag
        cases hag
        rfl
      · rw [if_neg hc] at hag
        by_cases ho : is_open_files_tool last = true
        · rw [if_pos ho] at hag
          cases hag
          rfl
        · rw [if_neg ho] at hag
          cases hag
          rfl

def c9_s0 : ChatState := ⟨[], ["x"], 0, false, none, none, ""⟩

def c9_batches : List (List ToolCall) :=
  [[⟨"open_files", ["a.py", "a.py"], "t1"⟩], [⟨"open_files", ["b.py"], "t2"⟩]]

/-- The state after running the two batches of `c9_batches` on `c9_s0`. -/
def c9_s' : ChatState :=
  ⟨[⟨.ai, "", [⟨"open_files", ["a.py", "a.py"], "t1"⟩], none, 0⟩,
    mkToolMessage "a.py:\nhi" "open_files",
    ⟨.ai, "", [⟨"open_files", ["b.py"], "t2"⟩], none, 0⟩,
    mkToolMessage no_valid_sentinel "open_files"],
   ["x", "a.py", "a.py", "b.py"], 0, false, none, none, ""⟩

/-- Witness for C9 at a concrete two-batch run with a duplicated path: the
log grows by the four requested paths in order, duplicates retained. -/
theorem c9_all_files_opened_append_only_witness :
    run_tool_batches c1_cb c1_le c9_s0 c9_batches = .ok c9_s'
    ∧ c9_s'.all_files_opened =
        c9_s0.all_files_opened ++ (c9_batches.map batch_files_opened).flatten :=
  ⟨by decide,
   (c9_all_files_opened_append_only c1_cb c1_le c9_s0 c9_s' c9_batches (by decide)).1⟩

/-! ## C5 — placeholder collapse of the previous `open_files` Tool message -/

/-- Unfolding equation of `collapse_last` on a singleton. -/
theorem collapse_last_single (m : Message) :
    collapse_last [m] = [{ m with content := "..." }] := rfl

/-- Unfolding equation of `collapse_last` on two or more messages. -/
theorem collapse_last_cons_cons (m m2 : Message) (rest : List Message) :
    collapse_last (m :: m2 :: rest) = m :: collapse_last (m2 :: rest) := rfl

/-- `collapse_last` preserves list length. -/
theorem collapse_last_length : ∀ ms : List Message, (collapse_last ms).length = ms.length := by
  intro ms
  induction ms with
  | nil => rfl
  | cons m rest ih =>
    cases rest with
    | nil => rfl
    | cons m2 rest2 =>
      rw [collapse_last_cons_cons]
      simp [ih]

/-- `collapse_last` changes no element except the last one. -/
theorem collapse_last_getElem? : ∀ (ms : List Message) (i : Nat), i + 1 < ms.length →
    (collapse_last ms)[i]? = ms[i]? := by
  intro ms
  induction ms with
  | nil => intro i h; simp at h
  | cons m rest ih =>
    intro i h
    cases rest with
    | nil => simp at h
    | cons m2 rest2 =>
      rw [collapse_last_cons_cons]
      cases i with
      | zero => simp
      | succ j =>
        simp only [List.getElem?_cons_succ]
        exact ih j (by simpa using h)

/-- `collapse_last` replaces the last element content with "...". -/
theorem collapse_last_last : ∀ (ms : List Message) (last : Message),
    ms.getLast? = some last →
    (collapse_last ms)[ms.length - 1]? = some { last with content := "..." } := by
  intro ms
  induction ms with
  | nil => intro last h; cases h
  | cons m rest ih =>
    intro last h
    cases rest with
    | nil =>
      cases h
      rfl
    | cons m2 rest2 =>
      rw [List.getLast?_cons_cons] at h
      have hrec := ih last h
      rw [collapse_last_cons_cons]
      have hlen : (m :: m2 :: rest2).length - 1 = ((m2 :: rest2).length - 1) + 1 := by
        simp
      rw [hlen, List.getElem?_cons_succ]
      exact hrec

/-- C5 (amended): in an Agent invocation whose preceding message is an
`open_files` Tool message, the content of that message is collapsed to "..."
in the persisted history — except on the forced-continuation path (response
without tool calls while exploration mode is on), where the node returns
early and the content survives untouched; in every case no message other
than the last has its content modified. -/
theorem c5_agent_placeholder_collapse (llm : List Message → Message)
    (s s' : ChatState) (last : Message)
    (hlast : s.messages.getLast? = some last)
    (hag : agent_node llm s = some s') :
    (((llm s.messages).tool_calls = [] ∧ s.generating_kb = true) →
        s'.messages = s.messages ++ [llm s.messages, continue_message])
    ∧ (¬ ((llm s.messages).tool_calls = [] ∧ s.generating_kb = true) →
        is_open_files_tool last = true →
        s'.messages = collapse_last s.messages ++ [llm s.messages]
        ∧ s'.messages[s.messages.length - 1]? = some { last with content := "..." })
    ∧ (¬ ((llm s.messages).tool_calls = [] ∧ s.generating_kb = true) →
        is_open_files_tool last = false →
        s'.messages = s.messages ++ [llm s.messages])
    ∧ (∀ i : Nat, i + 1 < s.messages.length → s'.messages[i]? = s.messages[i]?) := by
  have hlen : 0 < s.messages.length := by
    cases hm : s.messages with
    | nil => rw [hm] at hlast; cases hlast
    | cons a l => simp
  rw [agent_node_eq llm s last hlast] at hag
  by_cases hc : (llm s.messages).tool_calls = [] ∧ s.generating_kb = true
  · rw [if_pos hc] at hag
    cases hag
    refine ⟨fun _ => rfl, fun hn => (hn hc).elim, fun hn => (hn hc).elim, ?_⟩
    intro i hi
    show (s.messages ++ [llm s.messages, continue_message])[i]? = s.messages[i]?
    rw [List.getElem?_append_left (by omega)]
  · rw [if_neg hc] at hag
    by_cases ho : is_open_files_tool last = true
    · rw [if_pos ho] at hag
      cases hag
      refine ⟨fun h => (hc h).elim, fun _ _ => ⟨rfl, ?_⟩, fun _ hf => ?_, ?_⟩
      · show (collapse_last s.messages ++ [llm s.messages])[s.messages.length - 1]? = _
        rw [List.getElem?_append_left (by rw [collapse_last_length]; omega)]
        exact collapse_last_last s.messages last hlast
      · rw [ho] at hf
        exact Bool.noConfusion hf
      · intro i hi
        show (collapse_last s.messages ++ [llm s.messages])[i]? = s.messages[i]?
        rw [List.getElem?_append_left (by rw [collapse_last_length]; omega)]
        exact collapse_last_getElem? s.messages i hi
    · rw [if_neg ho] at hag
      cases hag
      refine ⟨fun h => (hc h).elim, fun _ ht => (ho ht).elim, fun _ _ => rfl, ?_⟩
      intro i hi
      show (s.messages ++ [llm s.messages])[i]? = s.messages[i]?
      rw [List.getElem?_append_left (by omega)]

/-- The `open_files` Tool message preceding the Agent call in the C5
scenarios, holding not-yet-collapsed file content. -/
def c5_tool_msg : Message := ⟨.tool, "FULL_CONTENT", [], some "open_files", 3⟩

def c5_state : ChatState := ⟨[c5_tool_msg], [], 0, true, none, none, ""⟩

/-- A model response without tool calls. -/
def c5_llm_notools : List Message → Message := fun _ => ⟨.ai, "done", [], none, 7⟩

/-- Counterexample to C5 as stated: exploration mode is on, the preceding
message is an `open_files` Tool message, the model response carries no tool
calls — and the Agent node persists the history with the Tool message content
intact ("FULL_CONTENT", not "..."): the collapse does not happen in every
such invocation. -/
theorem c5_counterexample :
    is_open_files_tool c5_tool_msg = true
    ∧ c5_state.generating_kb = true
    ∧ (agent_node c5_llm_notools c5_state).map (fun t => t.messages.map Message.content)
        = some ["FULL_CONTENT", "done", continue_content] := by
  decide

/-- A model response that does carry a tool call. -/
def c5_llm_tools : List Message → Message :=
  fun _ => ⟨.ai, "go", [⟨"open_files", ["x.py"], "t9"⟩], none, 9⟩

/-- Expected output state of the C5 witness run: the Tool message content is
collapsed and the response appended. -/
def c5_out : ChatState :=
  ⟨[⟨.tool, "...", [], some "open_files", 3⟩,
    ⟨.ai, "go", [⟨"open_files", ["x.py"], "t9"⟩], none, 9⟩], [], 0, true, none, none, ""⟩

/-- Witness for the amended C5: when the response does carry tool calls, the
preceding `open_files` Tool message is collapsed to "..." in the persisted
history. -/
theorem c5_agent_placeholder_collapse_witness :
    agent_node c5_llm_tools c5_state = some c5_out
    ∧ c5_out.messages = collapse_last c5_state.messages ++ [c5_llm_tools c5_state.messages]
    ∧ c5_out.messages[c5_state.messages.length - 1]? = some { c5_tool_msg with content := "..." } :=
  ⟨by decide,
   ((c5_agent_placeholder_collapse c5_llm_tools c5_state c5_out c5_tool_msg
      (by decide) (by decide)).2.1 (by decide) (by decide)).1,
   ((c5_agent_placeholder_collapse c5_llm_tools c5_state c5_out c5_tool_msg
      (by decide) (by decide)).2.1 (by decide) (by decide)).2⟩

/-! ## C6 — `open_files` error handling -/

/-- The `read_files` loop restricted to string elements (the well-typed
case); mirrors `read_files_loop`, which never raises on strings. -/
def read_files_loop_str (cb : Codebase) : List String → List (String × String) → List (String × String)
  | [], d => d
  | fp :: rest, d =>
    if sanitize_path fp = "" ∨ sanitize_path fp = "/" then read_files_loop_str cb rest d
    else
      match lookup_file cb.entries (sanitize_path fp) with
      | some content =>
        read_files_loop_str cb rest (dict_insert d (sanitize_path fp) (truncate_content content 30000))
      | none => read_files_loop_str cb rest d

/-- Unfolding equation of `read_files_loop_str` on the empty list. -/
theorem read_files_loop_str_nil (cb : Codebase) (d : List (String × String)) :
    read_files_loop_str cb [] d = d := rfl

/-- Unfolding equation of `read_files_loop_str` on a path. -/
theorem read_files_loop_str_cons_eq (cb : Codebase) (fp : String) (rest : List String)
    (d : List (String × String)) :
    read_files_loop_str cb (fp :: rest) d =
      (if sanitize_path fp = "" ∨ sanitize_path fp = "/" then read_files_loop_str cb rest d
       else match lookup_file cb.entries (sanitize_path fp) with
         | some content =>
           read_files_loop_str cb rest (dict_insert d (sanitize_path fp) (truncate_content content 30000))
         | none => read_files_loop_str cb rest d) := rfl

/-- On a list of strings the fallible loop never raises and agrees with the
pure loop. -/
theorem read_files_loop_str_eq (cb : Codebase) :
    ∀ (paths : List String) (d : List (String × String)),
      read_files_loop cb (paths.map PyVal.str) d = .ok (read_files_loop_str cb paths d) := by
  intro paths
  induction paths with
  | nil => intro d; rfl
  | cons fp rest ih =>
    intro d
    rw [List.map_cons, read_files_loop_str_cons, read_files_loop_str_cons_eq]
    by_cases hc : sanitize_path fp = "" ∨ sanitize_path fp = "/"
    · rw [if_pos hc, if_pos hc, ih]
    · rw [if_neg hc, if_neg hc]
      cases hl : lookup_file cb.entries (sanitize_path fp) with
      | some content => exact ih _
      | none => exact ih d

/-- Unfolding equation of `read_files` on a list argument. -/
theorem read_files_inr_eq (cb : Codebase) (le : String → Option (List PyVal))
    (l : List PyVal) : read_files cb le (.inr l) = read_files_finish cb l := rfl

/-- Unfolding equation of `read_files` on a string argument. -/
theorem read_files_inl_eq (cb : Codebase) (le : String → Option (List PyVal)) (s : String) :
    read_files cb le (.inl s) =
      (if pyStartsWith (pyStrip isPyWhitespace (pyRemoveChar '\n' s)) "[" &&
          pyEndsWith (pyStrip isPyWhitespace (pyRemoveChar '\n' s)) "]" then
        match le (pyStrip isPyWhitespace (pyRemoveChar '\n' s)) with
        | some l => read_files_finish cb l
        | none => .ok no_valid_sentinel
      else read_files_finish cb [.str (pyStrip isPyWhitespace (pyRemoveChar '\n' s))]) := rfl

/-- Can this requested path be resolved to a readable file (sanitized name
non-degenerate, file present in the tree)? -/
def path_resolves (cb : Codebase) (p : String) : Bool :=
  !(sanitize_path p = "" || sanitize_path p = "/") &&
    (lookup_file cb.entries (sanitize_path p)).isSome

/-- A path that does not resolve is skipped by the loop without any effect. -/
theorem read_files_loop_str_skip (cb : Codebase) (bad : String)
    (hbad : path_resolves cb bad = false) (d : List (String × String)) :
    read_files_loop_str cb [bad] d = d := by
  rw [read_files_loop_str_cons_eq]
  by_cases hc : sanitize_path bad = "" ∨ sanitize_path bad = "/"
  · rw [if_pos hc, read_files_loop_str_nil]
  · rw [if_neg hc]
    unfold path_resolves at hbad
    have hval : ¬ (sanitize_path bad = "" || sanitize_path bad = "/") = true := by
      simp only [Bool.or_eq_true, decide_eq_true_eq]
      intro h
      exact hc (by
        cases h with
        | inl h1 => exact Or.inl (by simpa using h1)
        | inr h2 => exact Or.inr (by simpa using h2))
    have hnone : (lookup_file cb.entries (sanitize_path bad)).isSome = false := by
      cases hs : (lookup_file cb.entries (sanitize_path bad)).isSome with
      | false => rfl
      | true =>
        rw [Bool.and_eq_false_iff] at hbad
        cases hbad with
        | inl h1 => simp [hval] at h1
        | inr h2 => rw [hs] at h2; cases h2
    cases hl : lookup_file cb.entries (sanitize_path bad) with
    | some content => rw [hl, Option.isSome_some] at hnone; cases hnone
    | none => rw [read_files_loop_str_nil]

/-- Composition of the loop over concatenated path lists. -/
theorem read_files_loop_str_append (cb : Codebase) :
    ∀ (l1 l2 : List String) (d : List (String × String)),
      read_files_loop_str cb (l1 ++ l2) d =
        read_files_loop_str cb l2 (read_files_loop_str cb l1 d) := by
  intro l1
  induction l1 with
  | nil => intro l2 d; rfl
  | cons fp rest ih =>
    intro l2 d
    rw [List.cons_append, read_files_loop_str_cons_eq, read_files_loop_str_cons_eq]
    by_cases hc : sanitize_path fp = "" ∨ sanitize_path fp = "/"
    · rw [if_pos hc, if_pos hc, ih]
    · rw [if_neg hc, if_neg hc]
      cases hl : lookup_file cb.entries (sanitize_path fp) with
      | some content => exact ih _ _
      | none => exact ih _ _

/-- C6 (amended): `open_files` degrades the enumerated invalid inputs to data
rather than exceptions — a bracket-shaped string argument whose parse fails
yields exactly the sentinel; a list of string paths always returns a result
(never an exception), namely the rendering of the resolved files; when no
path resolves the result is exactly the sentinel; and an unresolvable path
anywhere in the list is skipped with no effect on the output.  (A list
containing a non-string element, however, raises — see the
counterexample.) -/
theorem c6_read_files_error_handling :
    (∀ (cb : Codebase) (le : String → Option (List PyVal)) (s : String),
      (pyStartsWith (pyStrip isPyWhitespace (pyRemoveChar '\n' s)) "[" &&
        pyEndsWith (pyStrip isPyWhitespace (pyRemoveChar '\n' s)) "]") = true →
      le (pyStrip isPyWhitespace (pyRemoveChar '\n' s)) = none →
      read_files cb le (.inl s) = .ok no_valid_sentinel)
    ∧ (∀ (cb : Codebase) (le : String → Option (List PyVal)) (paths : List String),
        read_files cb le (.inr (paths.map PyVal.str)) =
          .ok (render_contents (read_files_loop_str cb paths [])))
    ∧ (∀ (cb : Codebase) (le : String → Option (List PyVal)) (paths : List String),
        read_files_loop_str cb paths [] = [] →
        read_files cb le (.inr (paths.map PyVal.str)) = .ok no_valid_sentinel)
    ∧ (∀ (cb : Codebase) (le : String → Option (List PyVal)) (l1 l2 : List String) (bad : String),
        path_resolves cb bad = false →
        read_files cb le (.inr ((l1 ++ bad :: l2).map PyVal.str)) =
          read_files cb le (.inr ((l1 ++ l2).map PyVal.str))) := by
  have hfinish : ∀ (cb : Codebase) (paths : List String),
      read_files_finish cb (paths.map PyVal.str) =
        .ok (render_contents (read_files_loop_str cb paths [])) := by
    intro cb paths
    rw [read_files_finish, read_files_loop_str_eq]
  refine ⟨?_, ?_, ?_, ?_⟩
  · intro cb le s hshape hparse
    rw [read_files_inl_eq, if_pos hshape, hparse]
  · intro cb le paths
    rw [read_files_inr_eq, hfinish]
  · intro cb le paths hempty
    rw [read_files_inr_eq, hfinish, hempty]
    rfl
  · intro cb le l1 l2 bad hbad
    rw [read_files_inr_eq, read_files_inr_eq, hfinish, hfinish]
    have h1 : read_files_loop_str cb (l1 ++ bad :: l2) [] =
        read_files_loop_str cb (l1 ++ l2) [] := by
      have hsplit : l1 ++ bad :: l2 = (l1 ++ [bad]) ++ l2 := by simp
      rw [hsplit, read_files_loop_str_append, read_files_loop_str_append,
        read_files_loop_str_append, read_files_loop_str_skip cb bad hbad]
    rw [h1]

/-- Counterexample to C6 as stated: a `file_paths` list containing a
non-string value (the model can emit such JSON) makes `open_files` raise
`AttributeError` at `fp.strip()` instead of returning the sentinel, although
zero paths resolve. -/
theorem c6_counterexample :
    read_files c1_cb c1_le (.inr [PyVal.other]) = .error "AttributeError"
    ∧ read_files c1_cb c1_le (.inr [PyVal.other]) ≠ .ok no_valid_sentinel := by
  decide

/-- Witness for the amended C6: a bracket-shaped argument whose parse fails
yields the sentinel; a list with only an unresolvable path yields the
sentinel; and dropping a nonexistent path from a list leaves the result
unchanged. -/
theorem c6_read_files_error_handling_witness :
    read_files c1_cb c1_le (.inl "[broken]") = .ok no_valid_sentinel
    ∧ read_files c1_cb c1_le (.inr (["nope.md"].map PyVal.str)) = .ok no_valid_sentinel
    ∧ read_files c1_cb c1_le (.inr ((["a.py"] ++ "zz.md" :: []).map PyVal.str)) =
        read_files c1_cb c1_le (.inr ((["a.py"] ++ []).map PyVal.str)) :=
  ⟨c6_read_files_error_handling.1 c1_cb c1_le "[broken]" (by decide) rfl,
   c6_read_files_error_handling.2.2.1 c1_cb c1_le ["nope.md"] (by decide),
   c6_read_files_error_handling.2.2.2 c1_cb c1_le ["a.py"] [] "zz.md" (by decide)⟩

/-! ## C3 — Summarizer compaction -/

/-- `remove_ids` is a single filter by the removed id set. -/
theorem remove_ids_eq_filter : ∀ (ids : List Nat) (ms : List Message),
    remove_ids ms ids = ms.filter (fun m => !(ids.contains m.id)) := by
  intro ids
  induction ids with
  | nil =>
    intro ms
    show ms = ms.filter _
    simp [List.contains]
  | cons i rest ih =>
    intro ms
    show remove_ids (ms.filter (fun m => m.id ≠ i)) rest = _
    rw [ih, List.filter_filter]
    apply List.filter_congr
    intro m _
    cases hm : decide (m.id = i) with
    | true =>
      have : m.id = i := of_decide_eq_true hm
      simp [List.contains, this]
    | false =>
      have : ¬ m.id = i := of_decide_eq_false hm
      simp [List.contains, this]

/-- `l.contains x` agrees with membership for `Nat` lists. -/
theorem nat_contains_iff (l : List Nat) (x : Nat) : l.contains x = true ↔ x ∈ l := by
  simp [List.contains]

/-- `contains` is false exactly on non-members. -/
theorem nat_contains_eq_false (l : List Nat) (x : Nat) (h : x ∉ l) :
    l.contains x = false := by
  cases hh : l.contains x with
  | false => rfl
  | true => exact absurd ((nat_contains_iff _ _).mp hh) h

/-- Filtering by "id not removed" keeps a message whose id is not in the set. -/
theorem filter_keep (ids : List Nat) (m : Message) (h : ids.contains m.id = false)
    (l : List Message) :
    List.filter (fun x => !(ids.contains x.id)) (m :: l) =
      m :: List.filter (fun x => !(ids.contains x.id)) l := by
  rw [List.filter_cons]
  rw [show (!(ids.contains m.id)) = true by rw [h]; rfl]
  rfl

/-- Filtering by "id not removed" drops a message whose id is in the set. -/
theorem filter_drop (ids : List Nat) (m : Message) (h : ids.contains m.id = true)
    (l : List Message) :
    List.filter (fun x => !(ids.contains x.id)) (m :: l) =
      List.filter (fun x => !(ids.contains x.id)) l := by
  rw [List.filter_cons]
  rw [show (!(ids.contains m.id)) = false by rw [h]; rfl]
  rfl

/-- The messages folded into the summary: everything before the last message,
minus a leading System message. -/
def folded_messages (m0 : Message) (mid : List Message) : List Message :=
  if m0.mtype = .system then mid else m0 :: mid

/-- Unfolding equation of `summarize_conversation` when at least one message
precedes the kept one. -/
theorem summarize_conversation_eq (llm : String → String) (s : ChatState)
    (m0 : Message) (rest : List Message)
    (h : s.messages.dropLast = m0 :: rest) :
    summarize_conversation llm s =
      some { s with
        summary := llm (summarize_prompt s.summary (folded_messages m0 rest)),
        messages := remove_ids s.messages ((folded_messages m0 rest).map Message.id) } := by
  unfold summarize_conversation folded_messages
  rw [h]

/-- Every element of a joined list embeds in the join. -/
theorem infix_of_mem_joinSep (sep : String) :
    ∀ (l : List String) (x : String), x ∈ l → x.data <:+: (joinSep sep l).data := by
  intro l
  induction l with
  | nil => intro x hx; cases hx
  | cons x0 rest ih =>
    intro x hx
    cases rest with
    | nil =>
      have : x = x0 := by
        cases hx with
        | head => rfl
        | tail _ h => cases h
      rw [this]
      exact List.infix_refl _
    | cons y ys =>
      cases hx with
      | head =>
        refine ⟨[], (sep ++ joinSep sep (y :: ys)).data, ?_⟩
        show x0.data ++ _ = _
        simp [joinSep, str_data_append, List.append_assoc]
      | tail _ hmem =>
        have hrec := ih x hmem
        have hsuf : (joinSep sep (y :: ys)).data <:+:
            (joinSep sep (x0 :: y :: ys)).data := by
          refine ⟨(x0 ++ sep).data, [], ?_⟩
          simp [joinSep, str_data_append, List.append_assoc]
        exact hrec.trans hsuf

/-- The content of a message embeds in its rendering. -/
theorem content_infix_repr (m : Message) : m.content.data <:+: (message_repr m).data := by
  refine ⟨(message_tag m.mtype ++ "(content=").data, ")".data, ?_⟩
  simp [message_repr, str_data_append, List.append_assoc]

/-- The content of every folded message embeds in the summary prompt. -/
theorem content_infix_prompt (prev : String) (l : List Message) (m : Message)
    (hm : m ∈ l) : m.content.data <:+: (summarize_prompt prev l).data := by
  have h1 : m.content.data <:+: (message_repr m).data := content_infix_repr m
  have h2 : (message_repr m).data <:+: (joinSep ", " (l.map message_repr)).data :=
    infix_of_mem_joinSep ", " (l.map message_repr) (message_repr m)
      (List.mem_map_of_mem message_repr hm)
  have h3 : (joinSep ", " (l.map message_repr)).data <:+: (render_removed l).data := by
    refine ⟨"[".data, "]".data, ?_⟩
    simp [render_removed, str_data_append, List.append_assoc]
  have h4 : (render_removed l).data <:+: (summarize_prompt prev l).data := by
    refine ⟨("\n        Current conversation summary: " ++ prev ++
      "\n        Update this summary with key technical details from these new messages:\n        ").data,
      "\n        less than 500 words\n        ".data, ?_⟩
    simp [summarize_prompt, str_data_append, List.append_assoc]
  exact ((h1.trans h2).trans h3).trans h4

/-- C3 (amended): when the Summarizer runs (history longer than 15 with
distinct message ids), the surviving history is exactly the kept last message
preceded by the leading System message when one is present — so its length is
`keep_messages` (= 1), plus 1 when a leading System message is kept; the new
running summary is the model response to a prompt embedding the previous
summary and the content of every folded message; and no folded message id
remains in the surviving history. -/
theorem c3_summarizer_compaction (llm : String → String) (s s' : ChatState)
    (m0 : Message) (mid : List Message) (last : Message)
    (hmsgs : s.messages = m0 :: mid ++ [last])
    (hlen : 15 < s.messages.length)
    (hnd : (s.messages.map Message.id).Nodup)
    (hsum : summarize_conversation llm s = some s') :
    (s'.messages = (if m0.mtype = .system then [m0] else []) ++ [last])
    ∧ (s'.messages.length = if m0.mtype = .system then 2 else 1)
    ∧ s'.summary = llm (summarize_prompt s.summary (folded_messages m0 mid))
    ∧ (∀ m ∈ folded_messages m0 mid,
        m.content.data <:+: (summarize_prompt s.summary (folded_messages m0 mid)).data)
    ∧ (∀ m ∈ folded_messages m0 mid, ∀ m2 ∈ s'.messages, m2.id ≠ m.id) := by
  have hdrop : s.messages.dropLast = m0 :: mid := by
    rw [hmsgs]
    show ((m0 :: mid) ++ [last]).dropLast = m0 :: mid
    exact List.dropLast_concat
  rw [summarize_conversation_eq llm s m0 mid hdrop] at hsum
  cases hsum
  -- id facts from Nodup
  have hnd2 : (m0.id :: (mid.map Message.id ++ [last.id])).Nodup := by
    rw [hmsgs] at hnd
    simpa using hnd
  have hm0_notin : m0.id ∉ mid.map Message.id ++ [last.id] := (List.nodup_cons.mp hnd2).1
  have htail : (mid.map Message.id ++ [last.id]).Nodup := (List.nodup_cons.mp hnd2).2
  have hlast_notin_mid : last.id ∉ mid.map Message.id := by
    intro hmem
    have hdisj := (List.nodup_append.mp htail).2.2
    exact hdisj hmem (List.mem_singleton_self _)
  have hm0_ne_last : m0.id ≠ last.id := by
    intro h
    exact hm0_notin (List.mem_append_right _ (h ▸ List.mem_singleton_self _))
  have hm0_notin_mid : m0.id ∉ mid.map Message.id := fun h =>
    hm0_notin (List.mem_append_left _ h)
  -- the folded id set
  have hlast_notin : last.id ∉ (folded_messages m0 mid).map Message.id := by
    unfold folded_messages
    by_cases hm0 : m0.mtype = .system
    · rw [if_pos hm0]; exact hlast_notin_mid
    · rw [if_neg hm0]
      intro hmem
      rw [List.map_cons] at hmem
      cases List.mem_cons.mp hmem with
      | inl h => exact hm0_ne_last h.symm
      | inr h => exact hlast_notin_mid h
  have hmem_folded : ∀ m ∈ mid, m.id ∈ (folded_messages m0 mid).map Message.id := by
    intro m hm
    unfold folded_messages
    by_cases hm0 : m0.mtype = .system
    · rw [if_pos hm0]; exact List.mem_map_of_mem Message.id hm
    · rw [if_neg hm0]
      rw [List.map_cons]
      exact List.mem_cons_of_mem _ (List.mem_map_of_mem Message.id hm)
  have hfiltermid :
      List.filter (fun m => !(((folded_messages m0 mid).map Message.id).contains m.id)) mid
        = [] := by
    rw [List.filter_eq_nil_iff]
    intro m hm
    rw [(nat_contains_iff _ _).mpr (hmem_folded m hm)]
    decide
  have hmessages :
      remove_ids s.messages ((folded_messages m0 mid).map Message.id) =
        (if m0.mtype = .system then [m0] else []) ++ [last] := by
    rw [remove_ids_eq_filter, hmsgs]
    show List.filter (fun m => !(((folded_messages m0 mid).map Message.id).contains m.id))
      ((m0 :: mid) ++ [last]) = _
    rw [List.filter_append]
    rw [filter_keep _ last (nat_contains_eq_false _ _ hlast_notin) [], List.filter_nil]
    by_cases hm0 : m0.mtype = .system
    · have hc : ((folded_messages m0 mid).map Message.id).contains m0.id = false := by
        apply nat_contains_eq_false
        unfold folded_messages
        rw [if_pos hm0]
        exact hm0_notin_mid
      rw [filter_keep _ m0 hc, hfiltermid, if_pos hm0]
    · have hc : ((folded_messages m0 mid).map Message.id).contains m0.id = true := by
        apply (nat_contains_iff _ _).mpr
        unfold folded_messages
        rw [if_neg hm0, List.map_cons]
        exact List.mem_cons_self _ _
      rw [filter_drop _ m0 hc, hfiltermid, if_neg hm0]
  refine ⟨hmessages, ?_, rfl, ?_, ?_⟩
  · show (remove_ids s.messages ((folded_messages m0 mid).map Message.id)).length = _
    rw [hmessages]
    by_cases hm0 : m0.mtype = .system
    · rw [if_pos hm0, if_pos hm0]; rfl
    · rw [if_neg hm0, if_neg hm0]; rfl
  · intro m hm
    exact content_infix_prompt s.summary (folded_messages m0 mid) m hm
  · intro m hm m2 hm2
    show m2.id ≠ m.id
    have hm2a : m2 ∈ (if m0.mtype = .system then [m0] else []) ++ [last] := by
      rw [← hmessages]
      exact hm2
    have hmid : m.id ∈ (folded_messages m0 mid).map Message.id :=
      List.mem_map_of_mem Message.id hm
    intro heq
    by_cases hm0 : m0.mtype = .system
    · rw [if_pos hm0] at hm2a
      have hcase : m2 = m0 ∨ m2 = last := by simpa using hm2a
      cases hcase with
      | inl h =>
        apply hm0_notin_mid
        have hid : m0.id = m.id := by rw [← h]; exact heq
        rw [hid]
        have hmid2 := hmid
        unfold folded_messages at hmid2
        rwa [if_pos hm0] at hmid2
      | inr h =>
        apply hlast_notin
        have hid : last.id = m.id := by rw [← h]; exact heq
        rw [hid]
        exact hmid
    · rw [if_neg hm0] at hm2a
      have hcase : m2 = last := by simpa using hm2a
      apply hlast_notin
      have hid : last.id = m.id := by rw [← hcase]; exact heq
      rw [hid]
      exact hmid

def c3_mkmsg (i : Nat) : Message := ⟨.human, "m", [], none, i⟩

def c3_llm : String → String := fun _ => "SUM"

/-- A 16-message history whose first message is a System message. -/
def c3x_state : ChatState :=
  ⟨⟨.system, "sys", [], none, 0⟩ :: (List.range 15).map (fun i => c3_mkmsg (i + 1)),
   [], 0, false, none, none, ""⟩

/-- Counterexample to C3 as stated: on a 16-message history with a leading
System message, the Summarizer leaves 2 messages (the kept System message
plus the last message), not exactly `keep_messages = 1`. -/
theorem c3_counterexample :
    c3x_state.messages.length = 16
    ∧ (summarize_conversation c3_llm c3x_state).map (fun t => t.messages.length)
        = some 2 := by
  decide

def c3w_m0 : Message := c3_mkmsg 0

def c3w_mid : List Message := (List.range 14).map (fun i => c3_mkmsg (i + 1))

def c3w_last : Message := c3_mkmsg 15

def c3w_state : ChatState :=
  ⟨c3w_m0 :: c3w_mid ++ [c3w_last], [], 0, false, none, none, ""⟩

/-- The state after the Summarizer runs on `c3w_state`. -/
def c3w_out : ChatState := ⟨[c3w_last], [], 0, false, none, none, "SUM"⟩

/-- Witness for the amended C3 on a 16-message history without a leading
System message: exactly the last message survives. -/
theorem c3_summarizer_compaction_witness :
    15 < c3w_state.messages.length
    ∧ c3w_out.messages = (if c3w_m0.mtype = .system then [c3w_m0] else []) ++ [c3w_last]
    ∧ c3w_out.messages.length = (if c3w_m0.mtype = .system then 2 else 1) :=
  ⟨by decide,
   (c3_summarizer_compaction c3_llm c3w_state c3w_out c3w_m0 c3w_mid c3w_last
      rfl (by decide) (by decide) (by decide)).1,
   (c3_summarizer_compaction c3_llm c3w_state c3w_out c3w_m0 c3w_mid c3w_last
      rfl (by decide) (by decide) (by decide)).2.1⟩

end CodeExplorer
